import Mathlib

/-!
Verification of the dark-current subtraction module
(`src/stcal/dark_current/dark_sub.py`).

The Python module works on numpy arrays of floating-point values.  We model a
floating-point value as either NaN or an exact rational (`Val`); infinities and
rounding are not modelled, as all properties under study are structural.
Arrays are modelled as total functions from indices together with explicit
shape fields; the shape fields mirror `ndarray.shape` and all loops of the
source iterate exactly over them.
-/

set_option maxHeartbeats 1000000

namespace DarkSub

/-- Model of a floating-point array element: NaN or an exact rational. -/
inductive Val where
  | nan : Val
  | num : ℚ → Val
deriving DecidableEq

/-- NaN test, mirroring `np.isnan` on one element. -/
def Val.isNan : Val → Bool
  | .nan => true
  | .num _ => false

/-- Addition with NaN propagation. -/
def Val.add : Val → Val → Val
  | .num a, .num b => .num (a + b)
  | _, _ => .nan

/-- Subtraction with NaN propagation. -/
def Val.sub : Val → Val → Val
  | .num a, .num b => .num (a - b)
  | _, _ => .nan

/-- Multiplication with NaN propagation. -/
def Val.mul : Val → Val → Val
  | .num a, .num b => .num (a * b)
  | _, _ => .nan

/-- Division with NaN propagation; division by zero yields NaN
(this is the only case the module can reach: the mean of an empty slice). -/
def Val.div : Val → Val → Val
  | .num a, .num b => if b = 0 then .nan else .num (a / b)
  | _, _ => .nan

/-- Modelled from the spec: the `ScienceData` container is built by the
external `dark_class` conversion layer, which is not under `src/`; its fields
are taken from spec section 3.  `data` is the 4-D science cube
[integration, group, row, column] with its shape recorded in the four
dimension fields; `pixeldq` is the 2-D per-pixel flag plane. -/
structure ScienceData where
  nints : ℕ
  ngroups : ℕ
  rows : ℕ
  cols : ℕ
  data : ℕ → ℕ → ℕ → ℕ → Val
  pixeldq : ℕ → ℕ → ℕ
  exp_nframes : ℕ
  exp_groupgap : ℕ
  exp_intstart : Option ℤ
  cal_step : String

/-- Modelled from the spec: the dark reference array of the external
`dark_class.DarkData` (not under `src/`), spec section 3: either a 3-D cube
[group, row, column] with a 2-D `groupdq`, or a 4-D per-integration cube
[integration, group, row, column] with a 4-D `groupdq`.  The source code
dispatches on `len(data.shape)`; here that is the constructor tag. -/
inductive DarkCube where
  | d3 (ngroups rows cols : ℕ) (data : ℕ → ℕ → ℕ → Val) (groupdq : ℕ → ℕ → ℕ)
  | d4 (nints ngroups rows cols : ℕ) (data : ℕ → ℕ → ℕ → ℕ → Val)
      (groupdq : ℕ → ℕ → ℕ → ℕ → ℕ)

/-- Modelled from the spec: the `DarkData` container of the external
`dark_class` module (not under `src/`), spec section 3. -/
structure DarkData where
  cube : DarkCube
  exp_nframes : ℕ
  exp_groupgap : ℕ
  exp_ngroups : ℕ
  save : Bool
  output_name : Option String

/-- `dark_data.data.shape[0]` for 4-D darks, 1 for 3-D darks
(`drk_nints` of `do_correction_data` and `dark_nints` of `subtract_dark`). -/
def DarkData.shapeNints (d : DarkData) : ℕ :=
  match d.cube with
  | .d3 _ _ _ _ _ => 1
  | .d4 dn _ _ _ _ _ => dn

/-- The group-axis length of the dark data array: `shape[1]` for 4-D darks,
`shape[0]` for 3-D darks (`drk_ngroups` of `do_correction_data`). -/
def DarkData.shapeNgroups (d : DarkData) : ℕ :=
  match d.cube with
  | .d3 dg _ _ _ _ => dg
  | .d4 _ dg _ _ _ _ => dg

/-- The row-axis length of the dark data array. -/
def DarkData.shapeRows (d : DarkData) : ℕ :=
  match d.cube with
  | .d3 _ dr _ _ _ => dr
  | .d4 _ _ dr _ _ _ => dr

/-- The column-axis length of the dark data array. -/
def DarkData.shapeCols (d : DarkData) : ℕ :=
  match d.cube with
  | .d3 _ _ dc _ _ => dc
  | .d4 _ _ _ dc _ _ => dc

/-- Uniform element access into the dark data: for a 3-D dark the integration
index is ignored, for a 4-D dark it selects the integration. -/
def DarkData.at4 (d : DarkData) (i g r c : ℕ) : Val :=
  match d.cube with
  | .d3 _ _ _ data _ => data g r c
  | .d4 _ _ _ _ data _ => data i g r c

/-- The collapse of the 4-D dark DQ planes done by `subtract_dark`
(lines 356-358): start from `groupdq[0, 0]` and bitwise-OR in
`groupdq[i, 0]` for `i` in `range(1, dark_nints)`. -/
def collapseDq (dn : ℕ) (dq : ℕ → ℕ → ℕ → ℕ → ℕ) (r c : ℕ) : ℕ :=
  (List.range (dn - 1)).foldl (fun acc k => acc ||| dq (k + 1) 0 r c) (dq 0 0 r c)

/-- `subtract_dark` (lines 316-388): copy the science data, merge the dark DQ
plane into `pixeldq` via bitwise-OR, and for every in-range integration `i`
and group `j` subtract the selected dark group `j` elementwise.  For a 4-D
dark, integration `i` of the dark is used when `i < dark_nints` and
`int_start == 1`, and the last dark integration otherwise; a 3-D dark is
applied to every science integration. -/
def subtract_dark (science_data : ScienceData) (dark_data : DarkData) : ScienceData :=
  let int_start : ℤ :=
    match science_data.exp_intstart with
    | none => 1
    | some v => v
  let dark_nints : ℕ := dark_data.shapeNints
  let darkdq : ℕ → ℕ → ℕ :=
    match dark_data.cube with
    | .d4 dn _ _ _ _ dq => fun r c => collapseDq dn dq r c
    | .d3 _ _ _ _ dq => dq
  { science_data with
    pixeldq := fun r c => science_data.pixeldq r c ||| darkdq r c
    data := fun i j r c =>
      if i < science_data.nints ∧ j < science_data.ngroups then
        Val.sub (science_data.data i j r c)
          (match dark_data.cube with
           | .d4 _ _ _ _ data _ =>
               if i < dark_nints ∧ int_start = 1 then data i j r c
               else data (dark_nints - 1) j r c
           | .d3 _ _ _ data _ => data j r c)
      else science_data.data i j r c }

/-- Elementwise sum of `n` consecutive frames starting at `start`. -/
def frameSum (f : ℕ → Val) (start n : ℕ) : Val :=
  (List.range n).foldl (fun acc k => Val.add acc (f (start + k))) (Val.num 0)

/-- `dark_data.data[start:start+nframes].mean(axis=0)` at pixel `(r, c)`:
the elementwise mean of `nframes` consecutive source frames. -/
def frameMean (src : ℕ → ℕ → ℕ → Val) (start nframes r c : ℕ) : Val :=
  Val.div (frameSum (fun k => src k r c) start nframes) (Val.num (nframes : ℚ))

/-- One iteration of the group loop common to `average_dark_frames_3d` and
`average_dark_frames_4d` (lines 212-226 and 291-306): the state is the running
frame pointer `start` and the output cube written so far; group `group` is
written either as a direct copy of frame `start` (when `nframes == 1`) or as
the mean of frames `[start, start+nframes)`, and then `start` advances past
the group's frames and the group gap. -/
def avgStep (src : ℕ → ℕ → ℕ → Val) (nframes groupgap : ℕ)
    (st : ℕ × (ℕ → ℕ → ℕ → Val)) (group : ℕ) : ℕ × (ℕ → ℕ → ℕ → Val) :=
  let start := st.1
  let d := st.2
  let newPlane : ℕ → ℕ → Val :=
    if nframes = 1 then fun r c => src start r c
    else fun r c => frameMean src start nframes r c
  (start + nframes + groupgap,
   fun g r c => if g = group then newPlane r c else d g r c)

/-- The full group loop of the averagers, folded over `range(ngroups)` from
`start = 0`; the initial output cube is the zero-filled allocation.
Modelled from the spec: `dark_class.DarkData(dims=...)` (not under `src/`)
allocates a fresh zero-filled data array of the given dimensions. -/
def avgLoop (src : ℕ → ℕ → ℕ → Val) (ngroups nframes groupgap : ℕ) :
    ℕ → ℕ → ℕ → Val :=
  ((List.range ngroups).foldl (avgStep src nframes groupgap)
    (0, fun _ _ _ => Val.num 0)).2

/-- `average_dark_frames_3d` (lines 174-233): average a 3-D dark to the target
cadence; the output has `ngroups` groups and the input's spatial dimensions,
`groupdq` is carried over directly, and the cadence metadata is overwritten.
The function is only called on 3-D darks; on a 4-D dark it is left as the
identity (that branch is unreachable from `do_correction_data`). -/
def average_dark_frames_3d (dark_data : DarkData) (ngroups nframes groupgap : ℕ) :
    DarkData :=
  match dark_data.cube with
  | .d3 _ dny dnx src dq =>
      { cube := .d3 ngroups dny dnx (avgLoop src ngroups nframes groupgap) dq
        exp_nframes := nframes
        exp_ngroups := ngroups
        exp_groupgap := groupgap
        save := false
        output_name := none }
  | .d4 _ _ _ _ _ _ => dark_data

/-- `average_dark_frames_4d` (lines 236-313): the output array is allocated
with shape `(dint, ngroups, dny, dnx)` where `dint` is the dark's own
integration count; the group loop is run independently for each of
`num_ints = min(dint, nints)` integrations and the remaining integrations keep
the zero-filled allocation.  `groupdq` is carried over directly.  The function
is only called on 4-D darks; on a 3-D dark it is the identity (unreachable
from `do_correction_data`). -/
def average_dark_frames_4d (dark_data : DarkData) (nints ngroups nframes groupgap : ℕ) :
    DarkData :=
  match dark_data.cube with
  | .d4 dint _ dny dnx src dq =>
      let num_ints := if dint > nints then nints else dint
      { cube := .d4 dint ngroups dny dnx
          (fun it g r c =>
            if it < num_ints then avgLoop (src it) ngroups nframes groupgap g r c
            else Val.num 0)
          dq
        exp_nframes := nframes
        exp_ngroups := ngroups
        exp_groupgap := groupgap
        save := false
        output_name := none }
  | .d3 _ _ _ _ _ => dark_data

/-- `_extrapolate_int` inside `extrapolate_dark` (lines 406-412): keep the
`g0` existing groups and append `n` new groups, where appended group
`g = g0 - 1 + k` (so `k = g - g0 + 1`, 1-indexed) has the value
`k * rate + arr[-1]` with `rate = arr[-1] - arr[-2]`. -/
def extrapolateInt (arr : ℕ → ℕ → ℕ → Val) (g0 : ℕ) : ℕ → ℕ → ℕ → Val :=
  fun g r c =>
    if g < g0 then arr g r c
    else
      Val.add
        (Val.mul (Val.num ((g - g0 + 1 : ℕ) : ℚ))
          (Val.sub (arr (g0 - 1) r c) (arr (g0 - 2) r c)))
        (arr (g0 - 1) r c)

/-- `extrapolate_dark` (lines 391-423): extend the dark by `ngroups` groups,
per integration for a 4-D dark, and add `ngroups` to `exp_ngroups`. -/
def extrapolate_dark (dark_data : DarkData) (ngroups : ℕ) : DarkData :=
  match dark_data.cube with
  | .d4 dn g0 dr dc src dq =>
      { dark_data with
        cube := .d4 dn (g0 + ngroups) dr dc (fun i => extrapolateInt (src i) g0) dq
        exp_ngroups := dark_data.exp_ngroups + ngroups }
  | .d3 g0 dr dc src dq =>
      { dark_data with
        cube := .d3 (g0 + ngroups) dr dc (extrapolateInt src g0) dq
        exp_ngroups := dark_data.exp_ngroups + ngroups }

/-- Line 130: `dark_data.data[np.isnan(dark_data.data)] = 0.0` — replace every
NaN in the dark's data with zero, in place. -/
def nanReplace (dark_data : DarkData) : DarkData :=
  match dark_data.cube with
  | .d3 g0 dr dc src dq =>
      { dark_data with
        cube := .d3 g0 dr dc
          (fun g r c => if (src g r c).isNan then Val.num 0 else src g r c) dq }
  | .d4 dn g0 dr dc src dq =>
      { dark_data with
        cube := .d4 dn g0 dr dc
          (fun i g r c => if (src i g r c).isNan then Val.num 0 else src i g r c) dq }

/-- Lines 105-106: total elapsed frames of a cadence,
`ngroups * nframes + (ngroups - 1) * groupgap`, computed over ℤ as in Python. -/
def total_frames (ngroups nframes groupgap : ℕ) : ℤ :=
  (ngroups : ℤ) * (nframes : ℤ) + ((ngroups : ℤ) - 1) * (groupgap : ℤ)

/-- Lines 113-114: number of groups to extrapolate,
`ceil((frames_to_extrapolate + drk_groupgap) / (drk_nframes + drk_groupgap))`. -/
def groups_to_extrapolate (frames_to_extrapolate : ℤ) (nframes groupgap : ℕ) : ℤ :=
  ⌈((frames_to_extrapolate : ℚ) + (groupgap : ℚ)) / ((nframes : ℚ) + (groupgap : ℚ))⌉

/-- The observable outcome of one `do_correction_data` call.  Python mutates
its arguments in place; the model makes that explicit: `out` and `avgDark` are
the two returned values, `sciFinal` and `darkFinal` are the states of the
caller's science and dark objects after the call. -/
structure CorrectionResult where
  out : ScienceData
  avgDark : Option DarkData
  sciFinal : ScienceData
  darkFinal : DarkData

/-- `do_correction_data` (lines 47-171): frame accounting, optional
extrapolation, the cadence skip check, NaN replacement, optional frame
averaging, subtraction, and the `cal_step` tags, in source order. -/
def do_correction_data (science_data : ScienceData) (dark_data : DarkData)
    (dark_output : Option String) : CorrectionResult :=
  let sci_nints := science_data.nints
  let sci_ngroups := science_data.ngroups
  let sci_nframes := science_data.exp_nframes
  let sci_groupgap := science_data.exp_groupgap
  let drk_ngroups := dark_data.shapeNgroups
  let drk_nframes := dark_data.exp_nframes
  let drk_groupgap := dark_data.exp_groupgap
  let sci_total_frames := total_frames sci_ngroups sci_nframes sci_groupgap
  let drk_total_frames := total_frames drk_ngroups drk_nframes drk_groupgap
  let dark1 :=
    if sci_total_frames > drk_total_frames then
      extrapolate_dark dark_data
        (groups_to_extrapolate (sci_total_frames - drk_total_frames)
          drk_nframes drk_groupgap).toNat
    else dark_data
  if drk_nframes > sci_nframes ∨ drk_groupgap > sci_groupgap then
    let sciSkipped := { science_data with cal_step := "SKIPPED" }
    { out := sciSkipped, avgDark := none, sciFinal := sciSkipped, darkFinal := dark1 }
  else
    let dark2 := nanReplace dark1
    if sci_nframes = drk_nframes ∧ sci_groupgap = drk_groupgap then
      let output0 := subtract_dark science_data dark2
      let output := { output0 with cal_step := "COMPLETE" }
      match dark_output with
      | some name =>
          let saved := { dark2 with save := true, output_name := some name }
          { out := output, avgDark := some saved, sciFinal := science_data,
            darkFinal := saved }
      | none =>
          { out := output, avgDark := none, sciFinal := science_data,
            darkFinal := dark2 }
    else
      let averaged0 :=
        match dark2.cube with
        | .d4 _ _ _ _ _ _ =>
            average_dark_frames_4d dark2 sci_nints sci_ngroups sci_nframes sci_groupgap
        | .d3 _ _ _ _ _ =>
            average_dark_frames_3d dark2 sci_ngroups sci_nframes sci_groupgap
      let averaged :=
        match dark_output with
        | some name => { averaged0 with save := true, output_name := some name }
        | none => averaged0
      let output0 := subtract_dark science_data averaged
      let output := { output0 with cal_step := "COMPLETE" }
      { out := output, avgDark := some averaged, sciFinal := science_data,
        darkFinal := dark2 }

/-!
A checked variant of the pipeline.  The functions above are total: they model
the source on inputs that satisfy its structural preconditions.  The variant
below additionally models where numpy raises — and where it silently
broadcasts — so that error-handling claims can be settled.
-/

/-- True exactly when an `Except` carries a value. -/
def isOkE {α : Type} : Except String α → Bool
  | .ok _ => true
  | .error _ => false

/-- Checked `extrapolate_dark`: `arr[-2]` raises `IndexError` when the group
axis has fewer than 2 entries.  For a 4-D dark the indexing only happens
inside the per-integration loop, so a dark with zero integrations raises
nothing. -/
def extrapolate_dark_chk (dark_data : DarkData) (ngroups : ℕ) :
    Except String DarkData :=
  if dark_data.shapeNgroups < 2 ∧ 1 ≤ dark_data.shapeNints then .error "IndexError"
  else .ok (extrapolate_dark dark_data ngroups)

/-- numpy broadcast index: an axis of length 1 is repeated, so every index
maps to 0; otherwise the index is used as is. -/
def bIdx (dim i : ℕ) : ℕ := if dim = 1 then 0 else i

/-- The dark as `subtract_dark` actually reads it when numpy broadcasting is
in play: a spatial axis of length 1 is repeated across the science's axis
(both for the data planes of line 386 and the DQ planes of line 364). -/
def broadcastDark (d : DarkData) (s : ScienceData) : DarkData :=
  match d.cube with
  | .d3 dg dr dc src dq =>
      { d with
        cube := .d3 dg s.rows s.cols
          (fun g r c => src g (bIdx dr r) (bIdx dc c))
          (fun r c => dq (bIdx dr r) (bIdx dc c)) }
  | .d4 dn dg dr dc src dq =>
      { d with
        cube := .d4 dn dg s.rows s.cols
          (fun i g r c => src i g (bIdx dr r) (bIdx dc c))
          (fun i g r c => dq i g (bIdx dr r) (bIdx dc c)) }

/-- Checked `subtract_dark`: the in-place subtraction of line 386 (and the DQ
merge of line 364) accepts a dark spatial axis that is either equal to the
science's or of length 1 (broadcast) and raises `ValueError` otherwise; a
group index beyond the dark's group axis raises `IndexError`; collapsing the
DQ planes of a 4-D dark with zero integrations raises `IndexError`.  (The
corner where a science spatial axis of length 1 is enlarged by the
attribute assignment of line 364 is not modelled; no claim quantifies over
it.) -/
def subtract_dark_chk (s : ScienceData) (d : DarkData) : Except String ScienceData :=
  match d.cube with
  | .d3 dg dr dc _ _ =>
      if ¬ ((dr = 1 ∨ dr = s.rows) ∧ (dc = 1 ∨ dc = s.cols)) then .error "ValueError"
      else if 1 ≤ s.nints ∧ dg < s.ngroups then .error "IndexError"
      else .ok (subtract_dark s (broadcastDark d s))
  | .d4 dn dg dr dc _ _ =>
      if dn = 0 then .error "IndexError"
      else if ¬ ((dr = 1 ∨ dr = s.rows) ∧ (dc = 1 ∨ dc = s.cols)) then .error "ValueError"
      else if 1 ≤ s.nints ∧ dg < s.ngroups then .error "IndexError"
      else .ok (subtract_dark s (broadcastDark d s))

/-- Checked `do_correction_data`: the pipeline of lines 47-171 with the
raising behaviour of `extrapolate_dark` and `subtract_dark` made explicit.
The averaging routines raise nothing relevant (numpy slicing clamps and the
output is allocated from the dark's own spatial dimensions). -/
def run_correction_chk (science_data : ScienceData) (dark_data : DarkData)
    (dark_output : Option String) : Except String (ScienceData × Option DarkData) :=
  let sci_nints := science_data.nints
  let sci_ngroups := science_data.ngroups
  let sci_nframes := science_data.exp_nframes
  let sci_groupgap := science_data.exp_groupgap
  let drk_ngroups := dark_data.shapeNgroups
  let drk_nframes := dark_data.exp_nframes
  let drk_groupgap := dark_data.exp_groupgap
  let sci_total_frames := total_frames sci_ngroups sci_nframes sci_groupgap
  let drk_total_frames := total_frames drk_ngroups drk_nframes drk_groupgap
  let darkRes :=
    if sci_total_frames > drk_total_frames then
      extrapolate_dark_chk dark_data
        (groups_to_extrapolate (sci_total_frames - drk_total_frames)
          drk_nframes drk_groupgap).toNat
    else .ok dark_data
  match darkRes with
  | .error e => .error e
  | .ok dark1 =>
      if drk_nframes > sci_nframes ∨ drk_groupgap > sci_groupgap then
        .ok ({ science_data with cal_step := "SKIPPED" }, none)
      else
        let dark2 := nanReplace dark1
        if sci_nframes = drk_nframes ∧ sci_groupgap = drk_groupgap then
          match subtract_dark_chk science_data dark2 with
          | .error e => .error e
          | .ok output0 =>
              .ok ({ output0 with cal_step := "COMPLETE" },
                match dark_output with
                | some name => some { dark2 with save := true, output_name := some name }
                | none => none)
        else
          let averaged0 :=
            match dark2.cube with
            | .d4 _ _ _ _ _ _ =>
                average_dark_frames_4d dark2 sci_nints sci_ngroups sci_nframes sci_groupgap
            | .d3 _ _ _ _ _ =>
                average_dark_frames_3d dark2 sci_ngroups sci_nframes sci_groupgap
          let averaged :=
            match dark_output with
            | some name => { averaged0 with save := true, output_name := some name }
            | none => averaged0
          match subtract_dark_chk science_data averaged with
          | .error e => .error e
          | .ok output0 =>
              .ok ({ output0 with cal_step := "COMPLETE" }, some averaged)

/-!
Concrete sample inputs for counterexamples and witnesses.
-/

/-- A 1-integration, 3-group, 1x1-pixel science exposure with `nframes = 1`,
`groupgap = 0`, all data zero. -/
def sciA : ScienceData :=
  { nints := 1, ngroups := 3, rows := 1, cols := 1
    data := fun _ _ _ _ => Val.num 0
    pixeldq := fun _ _ => 1
    exp_nframes := 1, exp_groupgap := 0
    exp_intstart := none, cal_step := "INIT" }

/-- A 3-D dark with 2 groups and a NaN in the last group
(group 0 holds 1, group 1 holds NaN), cadence `nframes = 1`, `groupgap = 0`. -/
def darkNan3 : DarkData :=
  { cube := .d3 2 1 1 (fun g _ _ => if g = 0 then Val.num 1 else Val.nan) (fun _ _ => 0)
    exp_nframes := 1, exp_groupgap := 0, exp_ngroups := 2
    save := false, output_name := none }

/-- A 3-D dark with a coarser cadence than `sciA` (`nframes = 2`) and enough
total frames (4 groups), constant data 5. -/
def darkCoarse3 : DarkData :=
  { cube := .d3 4 1 1 (fun _ _ _ => Val.num 5) (fun _ _ => 0)
    exp_nframes := 2, exp_groupgap := 0, exp_ngroups := 4
    save := false, output_name := none }

/-- A 4-D dark with 2 integrations and 3 groups, data `10*i + g`,
DQ plane `i + 1` on integration `i`, cadence matching `sciA`. -/
def dark4A : DarkData :=
  { cube := .d4 2 3 1 1
      (fun i g _ _ => Val.num ((10 * i + g : ℕ) : ℚ))
      (fun i _ _ _ => i + 1)
    exp_nframes := 1, exp_groupgap := 0, exp_ngroups := 3
    save := false, output_name := none }

/-- A 3-D dark with 4 groups of constant planes `g + 1`, fine cadence. -/
def darkFine3 : DarkData :=
  { cube := .d3 4 1 1 (fun g _ _ => Val.num ((g + 1 : ℕ) : ℚ)) (fun _ _ => 4)
    exp_nframes := 1, exp_groupgap := 0, exp_ngroups := 4
    save := false, output_name := none }

/-- A 2-row science exposure with a single group, used to exhibit silent
broadcasting: its spatial shape is 2x1. -/
def sciRows2 : ScienceData :=
  { nints := 1, ngroups := 1, rows := 2, cols := 1
    data := fun _ _ _ _ => Val.num 0
    pixeldq := fun _ _ => 0
    exp_nframes := 1, exp_groupgap := 0
    exp_intstart := none, cal_step := "INIT" }

/-- A 3-D dark whose spatial shape 1x1 is inconsistent with `sciRows2`
(1 row versus 2 science rows), data constant 7, cadence matching `sciRows2`. -/
def darkTiny3 : DarkData :=
  { cube := .d3 1 1 1 (fun _ _ _ => Val.num 7) (fun _ _ => 0)
    exp_nframes := 1, exp_groupgap := 0, exp_ngroups := 1
    save := false, output_name := none }

/-- A science exposure like `sciA` whose data is all NaN. -/
def sciNanA : ScienceData :=
  { nints := 1, ngroups := 3, rows := 1, cols := 1
    data := fun _ _ _ _ => Val.nan
    pixeldq := fun _ _ => 1
    exp_nframes := 1, exp_groupgap := 0
    exp_intstart := none, cal_step := "INIT" }

/-- A 3-D dark with a single group needing extrapolation against `sciA`
(total frames 1 < 3). -/
def darkOneGroup3 : DarkData :=
  { cube := .d3 1 1 1 (fun _ _ _ => Val.num 2) (fun _ _ => 0)
    exp_nframes := 1, exp_groupgap := 0, exp_ngroups := 1
    save := false, output_name := none }

/-!
Helper lemmas.
-/

/-- `Val` addition is commutative (NaN absorbs on both sides). -/
theorem val_add_comm (a b : Val) : Val.add a b = Val.add b a := by
  cases a <;> cases b <;> simp [Val.add, add_comm]

/-- A sum is NaN exactly when one operand is. -/
theorem val_isNan_add (a b : Val) : (Val.add a b).isNan = (a.isNan || b.isNan) := by
  cases a <;> cases b <;> rfl

/-- A difference is NaN exactly when one operand is. -/
theorem val_isNan_sub (a b : Val) : (Val.sub a b).isNan = (a.isNan || b.isNan) := by
  cases a <;> cases b <;> rfl

/-- Dividing a non-NaN value by a nonzero number is not NaN. -/
theorem val_isNan_div_num (a : Val) (q : ℚ) (hq : q ≠ 0) :
    (Val.div a (Val.num q)).isNan = a.isNan := by
  cases a <;> simp [Val.div, Val.isNan, hq]

/-- A sum of non-NaN frames is not NaN. -/
theorem frameSum_not_nan (f : ℕ → Val) (start n : ℕ)
    (h : ∀ k, (f k).isNan = false) : (frameSum f start n).isNan = false := by
  have key : ∀ (l : List ℕ) (acc : Val), acc.isNan = false →
      (l.foldl (fun acc k => Val.add acc (f (start + k))) acc).isNan = false := by
    intro l
    induction l with
    | nil => intro acc hacc; exact hacc
    | cons x xs ih =>
        intro acc hacc
        refine ih _ ?_
        rw [val_isNan_add, hacc, h]
        rfl
  exact key _ _ rfl

/-- The mean of non-NaN frames over a nonzero frame count is not NaN. -/
theorem frameMean_not_nan (src : ℕ → ℕ → ℕ → Val) (start nframes r c : ℕ)
    (hnf : nframes ≠ 0) (h : ∀ g r c, (src g r c).isNan = false) :
    (frameMean src start nframes r c).isNan = false := by
  unfold frameMean
  rw [val_isNan_div_num _ _ (by exact_mod_cast hnf)]
  exact frameSum_not_nan _ _ _ (fun k => h k r c)

/-- Closed form of the averagers' group loop: after folding over
`range n` the frame pointer sits at `n * (nframes + groupgap)` and group `g`
(for `g < n`) holds the copy or the mean of the frames starting at
`g * (nframes + groupgap)`. -/
theorem avgFold_eq (src : ℕ → ℕ → ℕ → Val) (nframes groupgap : ℕ) (n : ℕ) :
    (List.range n).foldl (avgStep src nframes groupgap) (0, fun _ _ _ => Val.num 0)
      = (n * (nframes + groupgap),
         fun g r c =>
           if g < n then
             if nframes = 1 then src (g * (nframes + groupgap)) r c
             else frameMean src (g * (nframes + groupgap)) nframes r c
           else Val.num 0) := by
  induction n with
  | zero => simp
  | succ n ih =>
      rw [List.range_succ, List.foldl_append, ih]
      simp only [List.foldl_cons, List.foldl_nil]
      unfold avgStep
      rw [Prod.mk.injEq]
      constructor
      · ring
      · funext g r c
        by_cases hg : g = n
        · subst hg
          have hlt : g < g + 1 := Nat.lt_succ_self g
          by_cases hnf : nframes = 1 <;> simp [hnf, hlt]
        · have hiff : (g < n + 1) ↔ (g < n) := by omega
          simp only [hg, if_false, hiff]

/-- The averagers' group loop at an in-range group. -/
theorem avgLoop_eq (src : ℕ → ℕ → ℕ → Val) (ngroups nframes groupgap g : ℕ)
    (hg : g < ngroups) (r c : ℕ) :
    avgLoop src ngroups nframes groupgap g r c =
      if nframes = 1 then src (g * (nframes + groupgap)) r c
      else frameMean src (g * (nframes + groupgap)) nframes r c := by
  unfold avgLoop
  rw [avgFold_eq]
  simp [hg]

/-- The averagers' group loop keeps the zero allocation outside the range. -/
theorem avgLoop_oob (src : ℕ → ℕ → ℕ → Val) (ngroups nframes groupgap g : ℕ)
    (hg : ¬ g < ngroups) (r c : ℕ) :
    avgLoop src ngroups nframes groupgap g r c = Val.num 0 := by
  unfold avgLoop
  rw [avgFold_eq]
  simp [hg]

/-- For at least one integration, the DQ collapse of `subtract_dark` equals a
bitwise-OR fold over all integrations starting from 0. -/
theorem collapseDq_eq_foldRange (dn : ℕ) (hdn : 1 ≤ dn)
    (dq : ℕ → ℕ → ℕ → ℕ → ℕ) (r c : ℕ) :
    collapseDq dn dq r c
      = (List.range dn).foldl (fun acc i => acc ||| dq i 0 r c) 0 := by
  obtain ⟨m, rfl⟩ : ∃ m, dn = m + 1 := ⟨dn - 1, by omega⟩
  unfold collapseDq
  rw [List.range_succ_eq_map]
  simp [List.foldl_map, Nat.zero_or]

/-- Bitwise-OR folds are invariant under permutation of the index list. -/
theorem foldl_lor_perm (g : ℕ → ℕ) {l1 l2 : List ℕ} (h : l1.Perm l2) (a : ℕ) :
    l1.foldl (fun acc i => acc ||| g i) a = l2.foldl (fun acc i => acc ||| g i) a := by
  induction h generalizing a with
  | nil => rfl
  | cons x _ ih => simp only [List.foldl_cons]; exact ih _
  | swap x y l =>
      simp only [List.foldl_cons]
      rw [Nat.lor_assoc, Nat.lor_assoc, Nat.lor_comm (g y) (g x)]
  | trans _ _ ih1 ih2 => rw [ih1, ih2]

/-- Extrapolation grows the dark's group axis by exactly `n`. -/
theorem extrapolate_shapeNgroups (d : DarkData) (n : ℕ) :
    (extrapolate_dark d n).shapeNgroups = d.shapeNgroups + n := by
  rcases d with ⟨cube, dnf, dgg, deg, dsv, don⟩
  cases cube <;> rfl

/-- NaN replacement does not change the dark's group axis. -/
theorem nanReplace_shapeNgroups (d : DarkData) :
    (nanReplace d).shapeNgroups = d.shapeNgroups := by
  rcases d with ⟨cube, dnf, dgg, deg, dsv, don⟩
  cases cube <;> rfl

/-- After NaN replacement every dark element is non-NaN. -/
theorem nanReplace_not_nan (d : DarkData) (i g r c : ℕ) :
    ((nanReplace d).at4 i g r c).isNan = false := by
  rcases d with ⟨cube, dnf, dgg, deg, dsv, don⟩
  cases cube with
  | d3 dg dr dc src dq =>
      simp only [nanReplace, DarkData.at4]
      split
      case isTrue => rfl
      case isFalse h => simpa using h
  | d4 dn dg dr dc src dq =>
      simp only [nanReplace, DarkData.at4]
      split
      case isTrue => rfl
      case isFalse h => simpa using h

/-- The 3-D averager of a NaN-free dark is NaN-free when the target frame
count is nonzero. -/
theorem average3d_not_nan (d : DarkData) (ngroups nframes groupgap : ℕ)
    (hnf : nframes ≠ 0) (hd : ∀ i g r c, (d.at4 i g r c).isNan = false)
    (i g r c : ℕ) :
    ((average_dark_frames_3d d ngroups nframes groupgap).at4 i g r c).isNan = false := by
  rcases d with ⟨cube, dnf, dgg, deg, dsv, don⟩
  cases cube with
  | d4 dn dg dr dc src dq => exact hd i g r c
  | d3 dg dr dc src dq =>
      simp only [average_dark_frames_3d, DarkData.at4]
      by_cases hg : g < ngroups
      · rw [avgLoop_eq _ _ _ _ _ hg]
        split
        · exact hd 0 _ r c
        · exact frameMean_not_nan _ _ _ _ _ hnf (fun g r c => hd 0 g r c)
      · rw [avgLoop_oob _ _ _ _ _ hg]
        rfl

/-- The 4-D averager of a NaN-free dark is NaN-free when the target frame
count is nonzero. -/
theorem average4d_not_nan (d : DarkData) (nints ngroups nframes groupgap : ℕ)
    (hnf : nframes ≠ 0) (hd : ∀ i g r c, (d.at4 i g r c).isNan = false)
    (i g r c : ℕ) :
    ((average_dark_frames_4d d nints ngroups nframes groupgap).at4 i g r c).isNan
      = false := by
  rcases d with ⟨cube, dnf, dgg, deg, dsv, don⟩
  cases cube with
  | d3 dg dr dc src dq => exact hd i g r c
  | d4 dn dg dr dc src dq =>
      simp only [DarkData.at4] at hd
      simp only [average_dark_frames_4d, DarkData.at4]
      by_cases hi : i < if dn > nints then nints else dn
      · rw [if_pos hi]
        by_cases hg : g < ngroups
        · rw [avgLoop_eq _ _ _ _ _ hg]
          split
          · exact hd i _ r c
          · exact frameMean_not_nan _ _ _ _ _ hnf (fun g r c => hd i g r c)
        · rw [avgLoop_oob _ _ _ _ _ hg]
          rfl
      · rw [if_neg hi]
        rfl

/-- If the dark is NaN-free, a NaN in the output of `subtract_dark` can only
come from the science data. -/
theorem subtract_nan_from_science (s : ScienceData) (d : DarkData)
    (hd : ∀ i g r c, (d.at4 i g r c).isNan = false) (i j r c : ℕ)
    (h : ((subtract_dark s d).data i j r c).isNan = true) :
    (s.data i j r c).isNan = true := by
  rcases d with ⟨cube, dnf, dgg, deg, dsv, don⟩
  cases cube with
  | d3 dg dr dc src dq =>
      simp only [subtract_dark] at h
      by_cases hb : i < s.nints ∧ j < s.ngroups
      · rw [if_pos hb] at h
        rw [val_isNan_sub] at h
        have := hd 0 j r c
        simp only [DarkData.at4] at this
        simpa [this] using h
      · rwa [if_neg hb] at h
  | d4 dn dg dr dc src dq =>
      simp only [subtract_dark, DarkData.shapeNints] at h
      by_cases hb : i < s.nints ∧ j < s.ngroups
      · rw [if_pos hb] at h
        rw [val_isNan_sub] at h
        have h1 := hd i j r c
        have h2 := hd (dn - 1) j r c
        simp only [DarkData.at4] at h1 h2
        by_cases hc : i < dn ∧ (match s.exp_intstart with | none => (1 : ℤ) | some v => v) = 1
        · rw [if_pos hc] at h
          simpa [h1] using h
        · rw [if_neg hc] at h
          simpa [h2] using h
      · rwa [if_neg hb] at h

/-!
Claim theorems.
-/

/-- C1: In `subtract_dark`, for every science integration `i` and group `j`,
the output data at `[i, j]` equals the science data at `[i, j]` minus group
`j` of the selected dark: for a 4-D dark the selected dark is `data[i]` iff
`i < dark_nints` and `int_start == 1` (with `int_start` defaulting to 1 when
`exp_intstart` is absent), and otherwise the last dark integration
`data[-1]`; a 3-D dark is applied to every science integration. -/
theorem C1_subtract_dark_formula (s : ScienceData) (d : DarkData) (i j r c : ℕ)
    (hi : i < s.nints) (hj : j < s.ngroups) :
    (subtract_dark s d).data i j r c =
      Val.sub (s.data i j r c)
        (match d.cube with
         | .d4 dn _ _ _ data _ =>
             if i < dn ∧ (match s.exp_intstart with | none => (1 : ℤ) | some v => v) = (1 : ℤ)
             then data i j r c
             else data (dn - 1) j r c
         | .d3 _ _ _ data _ => data j r c) := by
  rcases d with ⟨cube, dnf, dgg, deg, dsv, don⟩
  cases cube <;> simp [subtract_dark, DarkData.shapeNints, hi, hj]

/-- Witness for C1 at a concrete science exposure and 4-D dark. -/
theorem C1_subtract_dark_formula_witness :
    0 < sciA.nints ∧ 1 < sciA.ngroups ∧
    (subtract_dark sciA dark4A).data 0 1 0 0 =
      Val.sub (sciA.data 0 1 0 0)
        (match dark4A.cube with
         | .d4 dn _ _ _ data _ =>
             if 0 < dn ∧ (match sciA.exp_intstart with | none => (1 : ℤ) | some v => v) = (1 : ℤ)
             then data 0 1 0 0
             else data (dn - 1) 1 0 0
         | .d3 _ _ _ data _ => data 1 0 0) :=
  ⟨by norm_num [sciA], by norm_num [sciA],
   C1_subtract_dark_formula sciA dark4A 0 1 0 0 (by norm_num [sciA]) (by norm_num [sciA])⟩

/-- C2: whenever the dark's `nframes` or `groupgap` exceeds the science's,
`do_correction_data` aborts: the returned science object keeps the input data
unchanged, its `cal_step` is `SKIPPED`, and no dark object is returned,
regardless of the dark's rank. -/
theorem C2_skip_policy (s : ScienceData) (d : DarkData) (o : Option String)
    (h : d.exp_nframes > s.exp_nframes ∨ d.exp_groupgap > s.exp_groupgap) :
    (do_correction_data s d o).out.data = s.data ∧
    (do_correction_data s d o).out.cal_step = "SKIPPED" ∧
    (do_correction_data s d o).avgDark = none := by
  simp [do_correction_data, h]

/-- Witness for C2 at a concrete science exposure and a coarser 3-D dark. -/
theorem C2_skip_policy_witness :
    (darkCoarse3.exp_nframes > sciA.exp_nframes ∨
      darkCoarse3.exp_groupgap > sciA.exp_groupgap) ∧
    ((do_correction_data sciA darkCoarse3 none).out.data = sciA.data ∧
     (do_correction_data sciA darkCoarse3 none).out.cal_step = "SKIPPED" ∧
     (do_correction_data sciA darkCoarse3 none).avgDark = none) :=
  ⟨by norm_num [sciA, darkCoarse3],
   C2_skip_policy sciA darkCoarse3 none (by norm_num [sciA, darkCoarse3])⟩

/-- C4: for a dark with at least 2 groups and any `n ≥ 1`,
`extrapolate_dark` grows the group axis by exactly `n` (per integration),
leaves the pre-existing groups equal to the input, sets appended group `k`
(1-indexed) to `data[last] + k * (data[last] - data[last-1])`, and replaces
`exp_ngroups` by `exp_ngroups + n`. -/
theorem C4_extrapolate (d : DarkData) (n : ℕ) (hn : 1 ≤ n)
    (hg : 2 ≤ d.shapeNgroups) :
    (extrapolate_dark d n).shapeNgroups = d.shapeNgroups + n ∧
    (extrapolate_dark d n).exp_ngroups = d.exp_ngroups + n ∧
    (∀ i g r c, g < d.shapeNgroups →
        (extrapolate_dark d n).at4 i g r c = d.at4 i g r c) ∧
    (∀ i k r c, 1 ≤ k → k ≤ n →
        (extrapolate_dark d n).at4 i (d.shapeNgroups - 1 + k) r c =
          Val.add (d.at4 i (d.shapeNgroups - 1) r c)
            (Val.mul (Val.num ((k : ℕ) : ℚ))
              (Val.sub (d.at4 i (d.shapeNgroups - 1) r c)
                (d.at4 i (d.shapeNgroups - 2) r c)))) := by
  rcases d with ⟨cube, dnf, dgg, deg, dsv, don⟩
  cases cube with
  | d3 dg dr dc src dq =>
      simp only [DarkData.shapeNgroups] at hg ⊢
      refine ⟨rfl, rfl, ?_, ?_⟩
      · intro i g r c hglt
        simp [extrapolate_dark, DarkData.at4, extrapolateInt, hglt]
      · intro i k r c hk1 hkn
        have hnlt : ¬ (dg - 1 + k < dg) := by omega
        have hidx : dg - 1 + k - dg + 1 = k := by omega
        simp only [extrapolate_dark, DarkData.at4, extrapolateInt, hnlt, if_false, hidx]
        exact val_add_comm _ _
  | d4 dn dg dr dc src dq =>
      simp only [DarkData.shapeNgroups] at hg ⊢
      refine ⟨rfl, rfl, ?_, ?_⟩
      · intro i g r c hglt
        simp [extrapolate_dark, DarkData.at4, extrapolateInt, hglt]
      · intro i k r c hk1 hkn
        have hnlt : ¬ (dg - 1 + k < dg) := by omega
        have hidx : dg - 1 + k - dg + 1 = k := by omega
        simp only [extrapolate_dark, DarkData.at4, extrapolateInt, hnlt, if_false, hidx]
        exact val_add_comm _ _

/-- Witness for C4: extrapolating a concrete 4-group dark by 2 groups;
the first appended group (k = 1) has the claimed linear-rate value. -/
theorem C4_extrapolate_witness :
    (1 ≤ 2 ∧ 2 ≤ darkFine3.shapeNgroups ∧ 1 ≤ 1 ∧ 1 ≤ 2) ∧
    (extrapolate_dark darkFine3 2).at4 0 (darkFine3.shapeNgroups - 1 + 1) 0 0 =
      Val.add (darkFine3.at4 0 (darkFine3.shapeNgroups - 1) 0 0)
        (Val.mul (Val.num ((1 : ℕ) : ℚ))
          (Val.sub (darkFine3.at4 0 (darkFine3.shapeNgroups - 1) 0 0)
            (darkFine3.at4 0 (darkFine3.shapeNgroups - 2) 0 0))) :=
  ⟨⟨by norm_num, by norm_num [darkFine3, DarkData.shapeNgroups], by norm_num, by norm_num⟩,
   (C4_extrapolate darkFine3 2 (by norm_num)
      (by norm_num [darkFine3, DarkData.shapeNgroups])).2.2.2
     0 1 0 0 (by norm_num) (by norm_num)⟩

/-- C5: for a 3-D dark whose source has enough frames for every target
group, `average_dark_frames_3d` produces exactly `ngroups` groups where
group `g` (reading from `start = g * (nframes + groupgap)`) is a direct copy
of frame `start` when `nframes = 1` and the elementwise mean of frames
`[start, start + nframes)` otherwise, and the cadence metadata is set to the
target cadence. -/
theorem C5_average_3d (d : DarkData) (dg dr dc : ℕ) (src : ℕ → ℕ → ℕ → Val)
    (dq : ℕ → ℕ → ℕ) (hcube : d.cube = .d3 dg dr dc src dq)
    (ngroups nframes groupgap : ℕ)
    (hpre : ∀ g < ngroups, g * (nframes + groupgap) + nframes ≤ dg) :
    (average_dark_frames_3d d ngroups nframes groupgap).shapeNgroups = ngroups ∧
    (average_dark_frames_3d d ngroups nframes groupgap).exp_nframes = nframes ∧
    (average_dark_frames_3d d ngroups nframes groupgap).exp_ngroups = ngroups ∧
    (average_dark_frames_3d d ngroups nframes groupgap).exp_groupgap = groupgap ∧
    ∀ g, g < ngroups → ∀ r c,
      (average_dark_frames_3d d ngroups nframes groupgap).at4 0 g r c =
        if nframes = 1 then src (g * (nframes + groupgap)) r c
        else frameMean src (g * (nframes + groupgap)) nframes r c := by
  rcases d with ⟨cube, dnf, dgg, deg, dsv, don⟩
  cases cube with
  | d3 dg2 dr2 dc2 src2 dq2 =>
      obtain ⟨rfl, rfl, rfl, rfl, rfl⟩ :
          dg2 = dg ∧ dr2 = dr ∧ dc2 = dc ∧ src2 = src ∧ dq2 = dq := by
        injection hcube with h1 h2 h3 h4 h5
        exact ⟨h1, h2, h3, h4, h5⟩
      refine ⟨rfl, rfl, rfl, rfl, ?_⟩
      intro g hg r c
      simp only [average_dark_frames_3d, DarkData.at4]
      exact avgLoop_eq _ ngroups nframes groupgap g hg r c
  | d4 dn2 dg2 dr2 dc2 src2 dq2 => simp at hcube

/-- Witness for C5: averaging a concrete 4-group dark down to 2 groups of 2
frames each; group 0 is the mean of frames 0 and 1. -/
theorem C5_average_3d_witness :
    (∀ g < 2, g * (2 + 0) + 2 ≤ 4) ∧
    (average_dark_frames_3d darkFine3 2 2 0).shapeNgroups = 2 ∧
    (average_dark_frames_3d darkFine3 2 2 0).at4 0 0 0 0 =
      if 2 = 1 then (fun g _ _ => Val.num ((g + 1 : ℕ) : ℚ)) (0 * (2 + 0)) 0 0
      else frameMean (fun g _ _ => Val.num ((g + 1 : ℕ) : ℚ)) (0 * (2 + 0)) 2 0 0 :=
  ⟨by omega,
   (C5_average_3d darkFine3 4 1 1 (fun g _ _ => Val.num ((g + 1 : ℕ) : ℚ)) (fun _ _ => 4)
      rfl 2 2 0 (by omega)).1,
   (C5_average_3d darkFine3 4 1 1 (fun g _ _ => Val.num ((g + 1 : ℕ) : ℚ)) (fun _ _ => 4)
      rfl 2 2 0 (by omega)).2.2.2.2 0 (by norm_num) 0 0⟩

/-- C6 counterexample: the data array returned by `average_dark_frames_4d`
does not have `min(dark_nints, sci_nints)` integrations when the dark has
more integrations than the science data: for a 2-integration dark averaged
against 1 science integration the output integration axis has length 2,
not `min 2 1 = 1`. -/
theorem C6_average_4d_counterexample :
    ¬ ((average_dark_frames_4d dark4A 1 2 1 0).shapeNints
        = min dark4A.shapeNints 1) := by
  norm_num [average_dark_frames_4d, dark4A, DarkData.shapeNints]

/-- C6 (amended): `average_dark_frames_4d` applies the per-group averaging
algorithm of the 3-D variant independently to each of
`min(dark_nints, sci_nints)` integrations, but the data array it returns has
shape `(dark_nints, target_ngroups, rows, cols)` — the dark's own integration
count, with any remaining integrations left at the zero allocation. -/
theorem C6_average_4d (d : DarkData) (dn dg dr dc : ℕ)
    (src : ℕ → ℕ → ℕ → ℕ → Val) (dq : ℕ → ℕ → ℕ → ℕ → ℕ)
    (hcube : d.cube = .d4 dn dg dr dc src dq)
    (nints ngroups nframes groupgap : ℕ) :
    (average_dark_frames_4d d nints ngroups nframes groupgap).shapeNints = dn ∧
    (average_dark_frames_4d d nints ngroups nframes groupgap).shapeNgroups = ngroups ∧
    (average_dark_frames_4d d nints ngroups nframes groupgap).shapeRows = dr ∧
    (average_dark_frames_4d d nints ngroups nframes groupgap).shapeCols = dc ∧
    ∀ it, it < min dn nints → ∀ g, g < ngroups → ∀ r c,
      (average_dark_frames_4d d nints ngroups nframes groupgap).at4 it g r c =
        if nframes = 1 then src it (g * (nframes + groupgap)) r c
        else frameMean (src it) (g * (nframes + groupgap)) nframes r c := by
  rcases d with ⟨cube, dnf, dgg, deg, dsv, don⟩
  cases cube with
  | d3 dg2 dr2 dc2 src2 dq2 => simp at hcube
  | d4 dn2 dg2 dr2 dc2 src2 dq2 =>
      obtain ⟨rfl, rfl, rfl, rfl, rfl, rfl⟩ :
          dn2 = dn ∧ dg2 = dg ∧ dr2 = dr ∧ dc2 = dc ∧ src2 = src ∧ dq2 = dq := by
        injection hcube with h1 h2 h3 h4 h5 h6
        exact ⟨h1, h2, h3, h4, h5, h6⟩
      refine ⟨rfl, rfl, rfl, rfl, ?_⟩
      intro it hit g hg r c
      simp only [average_dark_frames_4d, DarkData.at4]
      have hit2 : it < if dn2 > nints then nints else dn2 := by
        rcases Nat.lt_or_ge nints dn2 with h | h
        · rw [if_pos h]; omega
        · rw [if_neg (by omega)]; omega
      rw [if_pos hit2]
      exact avgLoop_eq _ ngroups nframes groupgap g hg r c

/-- Witness for the amended C6 at a concrete 2-integration dark averaged
against 1 science integration: the integration axis keeps length 2 while
integration 0 gets the 3-D per-group mean. -/
theorem C6_average_4d_witness :
    (average_dark_frames_4d dark4A 1 1 2 0).shapeNints = 2 ∧
    (average_dark_frames_4d dark4A 1 1 2 0).at4 0 0 0 0 =
      (if 2 = 1 then
        (fun i g _ _ => Val.num ((10 * i + g : ℕ) : ℚ)) 0 (0 * (2 + 0)) 0 0
      else
        frameMean ((fun i g _ _ => Val.num ((10 * i + g : ℕ) : ℚ)) 0)
          (0 * (2 + 0)) 2 0 0) :=
  ⟨(C6_average_4d dark4A 2 3 1 1
      (fun i g _ _ => Val.num ((10 * i + g : ℕ) : ℚ)) (fun i _ _ _ => i + 1)
      rfl 1 1 2 0).1,
   (C6_average_4d dark4A 2 3 1 1
      (fun i g _ _ => Val.num ((10 * i + g : ℕ) : ℚ)) (fun i _ _ _ => i + 1)
      rfl 1 1 2 0).2.2.2.2 0 (by norm_num) 0 (by norm_num) 0 0⟩

/-- C7: `subtract_dark` sets the output `pixeldq` to the bitwise-OR of the
science `pixeldq` with the dark quality plane — for a 4-D dark the
OR-reduction of `groupdq[i, 0]` over all dark integrations, for a 3-D dark
`groupdq` itself — and OR-reducing the per-integration planes along any
permutation of the integration order yields the same plane. -/
theorem C7_pixeldq_union (s : ScienceData) (d : DarkData) (r c : ℕ) :
    (match d.cube with
     | .d4 dn _ _ _ _ dq =>
         1 ≤ dn →
         ((subtract_dark s d).pixeldq r c
            = s.pixeldq r c |||
              (List.range dn).foldl (fun acc i => acc ||| dq i 0 r c) 0)
         ∧ ∀ l : List ℕ, l.Perm (List.range dn) →
             l.foldl (fun acc i => acc ||| dq i 0 r c) 0
               = (List.range dn).foldl (fun acc i => acc ||| dq i 0 r c) 0
     | .d3 _ _ _ _ dq =>
         (subtract_dark s d).pixeldq r c = s.pixeldq r c ||| dq r c) := by
  rcases d with ⟨cube, dnf, dgg, deg, dsv, don⟩
  cases cube with
  | d3 dg dr dc src dq => rfl
  | d4 dn dg dr dc src dq =>
      intro hdn
      constructor
      · show s.pixeldq r c ||| collapseDq dn dq r c = _
        rw [collapseDq_eq_foldRange dn hdn]
      · intro l hl
        exact foldl_lor_perm _ hl 0

/-- Witness for C7 at a concrete 4-D dark with 2 integrations, checking both
the `pixeldq` union and invariance under the reversed integration order. -/
theorem C7_pixeldq_union_witness :
    ((subtract_dark sciA dark4A).pixeldq 0 0
        = sciA.pixeldq 0 0 |||
          (List.range 2).foldl (fun acc i => acc ||| (fun i _ _ _ => i + 1) i 0 0 0) 0) ∧
    [1, 0].foldl (fun acc i => acc ||| (fun i _ _ _ => i + 1) i 0 0 0) 0
      = (List.range 2).foldl (fun acc i => acc ||| (fun i _ _ _ => i + 1) i 0 0 0) 0 :=
  ⟨(C7_pixeldq_union sciA dark4A 0 0 (by norm_num)).1,
   (C7_pixeldq_union sciA dark4A 0 0 (by norm_num)).2 [1, 0] (by decide)⟩

/-- After adding `groups_to_extrapolate` groups, the dark's total elapsed
frames cover the science total: the ceiling division rounds up far enough. -/
theorem coverage_math (n0 nf gg : ℕ) (sciT : ℤ) (hnf : 1 ≤ nf)
    (hshort : sciT > total_frames n0 nf gg) :
    total_frames
        (n0 + (groups_to_extrapolate (sciT - total_frames n0 nf gg) nf gg).toNat)
        nf gg ≥ sciT := by
  set f : ℤ := sciT - total_frames n0 nf gg with hf
  have hfpos : 1 ≤ f := by omega
  have hdenpos : (0 : ℚ) < (nf : ℚ) + (gg : ℚ) := by
    have h1 : (1 : ℚ) ≤ (nf : ℚ) := by exact_mod_cast hnf
    have h2 : (0 : ℚ) ≤ (gg : ℚ) := by positivity
    linarith
  have hnumpos : (0 : ℚ) < (f : ℚ) + (gg : ℚ) := by
    have h1 : (1 : ℚ) ≤ (f : ℚ) := by exact_mod_cast hfpos
    have h2 : (0 : ℚ) ≤ (gg : ℚ) := by positivity
    linarith
  have hgpos : 0 < groups_to_extrapolate f nf gg := by
    unfold groups_to_extrapolate
    exact Int.ceil_pos.mpr (div_pos hnumpos hdenpos)
  have hle : (f : ℚ) + (gg : ℚ)
      ≤ ((groups_to_extrapolate f nf gg : ℤ) : ℚ) * ((nf : ℚ) + (gg : ℚ)) := by
    have h1 : ((f : ℚ) + (gg : ℚ)) / ((nf : ℚ) + (gg : ℚ))
        ≤ ((groups_to_extrapolate f nf gg : ℤ) : ℚ) := by
      unfold groups_to_extrapolate
      exact Int.le_ceil _
    calc (f : ℚ) + (gg : ℚ)
        = (((f : ℚ) + (gg : ℚ)) / ((nf : ℚ) + (gg : ℚ))) * ((nf : ℚ) + (gg : ℚ)) := by
          field_simp
      _ ≤ ((groups_to_extrapolate f nf gg : ℤ) : ℚ) * ((nf : ℚ) + (gg : ℚ)) :=
          mul_le_mul_of_nonneg_right h1 (le_of_lt hdenpos)
  have hleZ : f + (gg : ℤ) ≤ groups_to_extrapolate f nf gg * ((nf : ℤ) + (gg : ℤ)) := by
    exact_mod_cast hle
  have htn : (((groups_to_extrapolate f nf gg).toNat : ℤ)) = groups_to_extrapolate f nf gg :=
    Int.toNat_of_nonneg (le_of_lt hgpos)
  have hexpand :
      total_frames (n0 + (groups_to_extrapolate f nf gg).toNat) nf gg
        = total_frames n0 nf gg
            + groups_to_extrapolate f nf gg * ((nf : ℤ) + (gg : ℤ)) := by
    unfold total_frames
    push_cast [htn]
    ring
  have hggnn : (0 : ℤ) ≤ (gg : ℤ) := by positivity
  rw [hexpand]
  linarith

/-- Setting the persistence fields does not change the dark's group axis. -/
theorem save_update_shapeNgroups (d : DarkData) (sv : Bool) (nm : Option String) :
    ({ d with save := sv, output_name := nm }).shapeNgroups = d.shapeNgroups := rfl

/-- C3: `do_correction_data` compares total elapsed frames computed as
`ngroups * nframes + (ngroups - 1) * groupgap`; when the science total
exceeds the dark total it extends the dark by exactly
`ceil((shortfall + drk_groupgap) / (drk_nframes + drk_groupgap))` groups, and
the extended dark's total elapsed frames cover the science total for every
valid cadence. -/
theorem C3_frame_accounting (s : ScienceData) (d : DarkData) (o : Option String)
    (hnf : 1 ≤ d.exp_nframes)
    (hshort : total_frames s.ngroups s.exp_nframes s.exp_groupgap >
              total_frames d.shapeNgroups d.exp_nframes d.exp_groupgap) :
    (do_correction_data s d o).darkFinal.shapeNgroups =
      d.shapeNgroups +
        (groups_to_extrapolate
          (total_frames s.ngroups s.exp_nframes s.exp_groupgap -
            total_frames d.shapeNgroups d.exp_nframes d.exp_groupgap)
          d.exp_nframes d.exp_groupgap).toNat ∧
    total_frames (do_correction_data s d o).darkFinal.shapeNgroups
        d.exp_nframes d.exp_groupgap ≥
      total_frames s.ngroups s.exp_nframes s.exp_groupgap := by
  have key : (do_correction_data s d o).darkFinal.shapeNgroups =
      d.shapeNgroups +
        (groups_to_extrapolate
          (total_frames s.ngroups s.exp_nframes s.exp_groupgap -
            total_frames d.shapeNgroups d.exp_nframes d.exp_groupgap)
          d.exp_nframes d.exp_groupgap).toNat := by
    by_cases hskip : d.exp_nframes > s.exp_nframes ∨ d.exp_groupgap > s.exp_groupgap
    · simp [do_correction_data, hshort, hskip, extrapolate_shapeNgroups]
    · by_cases hmatch : s.exp_nframes = d.exp_nframes ∧ s.exp_groupgap = d.exp_groupgap
      · obtain ⟨he1, he2⟩ := hmatch
        rw [he1, he2] at hshort
        cases o with
        | none =>
            simp [do_correction_data, hshort, hskip, he1, he2,
              nanReplace_shapeNgroups, extrapolate_shapeNgroups]
        | some name =>
            simp [do_correction_data, hshort, hskip, he1, he2,
              save_update_shapeNgroups,
              nanReplace_shapeNgroups, extrapolate_shapeNgroups]
      · simp [do_correction_data, hshort, hskip, hmatch,
          nanReplace_shapeNgroups, extrapolate_shapeNgroups]
  refine ⟨key, ?_⟩
  rw [key]
  exact coverage_math d.shapeNgroups d.exp_nframes d.exp_groupgap
    (total_frames s.ngroups s.exp_nframes s.exp_groupgap) hnf hshort

/-- Witness for C3: `sciA` (total 3 frames) against the 2-group `darkNan3`
(total 2 frames): one group is appended and the new total covers 3. -/
theorem C3_frame_accounting_witness :
    (1 ≤ darkNan3.exp_nframes ∧
     total_frames sciA.ngroups sciA.exp_nframes sciA.exp_groupgap >
       total_frames darkNan3.shapeNgroups darkNan3.exp_nframes darkNan3.exp_groupgap) ∧
    ((do_correction_data sciA darkNan3 none).darkFinal.shapeNgroups =
      darkNan3.shapeNgroups +
        (groups_to_extrapolate
          (total_frames sciA.ngroups sciA.exp_nframes sciA.exp_groupgap -
            total_frames darkNan3.shapeNgroups darkNan3.exp_nframes darkNan3.exp_groupgap)
          darkNan3.exp_nframes darkNan3.exp_groupgap).toNat ∧
     total_frames (do_correction_data sciA darkNan3 none).darkFinal.shapeNgroups
        darkNan3.exp_nframes darkNan3.exp_groupgap ≥
      total_frames sciA.ngroups sciA.exp_nframes sciA.exp_groupgap) :=
  ⟨⟨by norm_num [darkNan3],
    by norm_num [sciA, darkNan3, total_frames, DarkData.shapeNgroups]⟩,
   C3_frame_accounting sciA darkNan3 none (by norm_num [darkNan3])
     (by norm_num [sciA, darkNan3, total_frames, DarkData.shapeNgroups])⟩

/-- C8 counterexample: NaNs in the dark are NOT replaced before all
arithmetic — line 115 extrapolates before line 130 replaces.  On a dark whose
last group is NaN, the pipeline's output differs from the output obtained by
replacing the NaNs first, because the extrapolation rate was computed from
the NaN and the resulting NaN groups were then zeroed. -/
theorem C8_counterexample :
    (do_correction_data sciA darkNan3 none).out.data 0 2 0 0 ≠
      (do_correction_data sciA (nanReplace darkNan3) none).out.data 0 2 0 0 := by
  norm_num [do_correction_data, sciA, darkNan3, total_frames, DarkData.shapeNgroups,
    DarkData.shapeNints, groups_to_extrapolate, extrapolate_dark, extrapolateInt,
    nanReplace, subtract_dark, Val.add, Val.mul, Val.sub, Val.isNan, collapseDq]

/-- NaN-freeness of the averager dispatch of `do_correction_data`
(lines 153-158) on a NaN-free dark. -/
theorem avg_dispatch_not_nan (d2 : DarkData) (nints ngroups nframes groupgap : ℕ)
    (hnf : nframes ≠ 0) (hd : ∀ i g r c, (d2.at4 i g r c).isNan = false)
    (i g r c : ℕ) :
    (((match d2.cube with
       | .d4 _ _ _ _ _ _ => average_dark_frames_4d d2 nints ngroups nframes groupgap
       | .d3 _ _ _ _ _ =>
           average_dark_frames_3d d2 ngroups nframes groupgap)).at4 i g r c).isNan
      = false := by
  rcases hd2 : d2.cube with _ | _
  · exact average3d_not_nan d2 ngroups nframes groupgap hnf hd i g r c
  · exact average4d_not_nan d2 nints ngroups nframes groupgap hnf hd i g r c

/-- C8 (amended): NaNs in the dark's data are replaced with zero after the
extrapolation step but before averaging and subtraction; hence on every
non-skipped correction the dark actually subtracted is NaN-free and a NaN in
the output data can only come from the science data. -/
theorem C8_amended_nan_containment (s : ScienceData) (d : DarkData) (o : Option String)
    (hnf : 1 ≤ s.exp_nframes)
    (hskip : ¬ (d.exp_nframes > s.exp_nframes ∨ d.exp_groupgap > s.exp_groupgap))
    (i j r c : ℕ)
    (hnan : ((do_correction_data s d o).out.data i j r c).isNan = true) :
    (s.data i j r c).isNan = true := by
  have hnf0 : s.exp_nframes ≠ 0 := by omega
  simp only [do_correction_data] at hnan
  rw [if_neg hskip] at hnan
  by_cases hmatch : s.exp_nframes = d.exp_nframes ∧ s.exp_groupgap = d.exp_groupgap
  · rw [if_pos hmatch] at hnan
    cases o with
    | none =>
        exact subtract_nan_from_science s _
          (fun i g r c => nanReplace_not_nan _ i g r c) i j r c hnan
    | some name =>
        exact subtract_nan_from_science s _
          (fun i g r c => nanReplace_not_nan _ i g r c) i j r c hnan
  · rw [if_neg hmatch] at hnan
    cases o with
    | none =>
        exact subtract_nan_from_science s _
          (avg_dispatch_not_nan _ s.nints s.ngroups s.exp_nframes s.exp_groupgap hnf0
            (fun i g r c => nanReplace_not_nan _ i g r c)) i j r c hnan
    | some name =>
        exact subtract_nan_from_science s _
          (avg_dispatch_not_nan _ s.nints s.ngroups s.exp_nframes s.exp_groupgap hnf0
            (fun i g r c => nanReplace_not_nan _ i g r c)) i j r c hnan

/-- Witness for the amended C8: an all-NaN science exposure corrected with a
NaN-free matching dark still has NaN output, and the implication applies. -/
theorem C8_amended_nan_containment_witness :
    (1 ≤ sciNanA.exp_nframes ∧
     ¬ (darkFine3.exp_nframes > sciNanA.exp_nframes ∨
         darkFine3.exp_groupgap > sciNanA.exp_groupgap) ∧
     ((do_correction_data sciNanA darkFine3 none).out.data 0 0 0 0).isNan = true) ∧
    (sciNanA.data 0 0 0 0).isNan = true :=
  ⟨⟨by norm_num [sciNanA],
    by norm_num [sciNanA, darkFine3],
    by norm_num [do_correction_data, sciNanA, darkFine3, total_frames,
      DarkData.shapeNgroups, DarkData.shapeNints, nanReplace, subtract_dark,
      Val.sub, Val.isNan, collapseDq]⟩,
   C8_amended_nan_containment sciNanA darkFine3 none (by norm_num [sciNanA])
     (by norm_num [sciNanA, darkFine3]) 0 0 0 0
     (by norm_num [do_correction_data, sciNanA, darkFine3, total_frames,
       DarkData.shapeNgroups, DarkData.shapeNints, nanReplace, subtract_dark,
       Val.sub, Val.isNan, collapseDq])⟩

/-- C9 counterexample: `do_correction_data` DOES mutate the caller's science
object — on the skipped path line 125 sets `cal_step = "SKIPPED"` on the
input object before the copy is taken, so after the call the caller's science
object no longer carries its original `cal_step`. -/
theorem C9_counterexample :
    (do_correction_data sciA darkCoarse3 none).sciFinal.cal_step ≠ sciA.cal_step := by
  simp [do_correction_data, sciA, darkCoarse3, total_frames, DarkData.shapeNgroups]

/-- C9 (amended): apart from the skipped path setting the input science
object's `cal_step` to `SKIPPED` before copying, `do_correction_data` leaves
the caller's science object unchanged — in particular its data and `pixeldq`
arrays are never written — and the returned science object is a fresh copy. -/
theorem C9_amended_no_mutation (s : ScienceData) (d : DarkData) (o : Option String) :
    (do_correction_data s d o).sciFinal =
      if d.exp_nframes > s.exp_nframes ∨ d.exp_groupgap > s.exp_groupgap
      then { s with cal_step := "SKIPPED" } else s := by
  by_cases hskip : d.exp_nframes > s.exp_nframes ∨ d.exp_groupgap > s.exp_groupgap
  · simp [do_correction_data, hskip]
  · by_cases hmatch : s.exp_nframes = d.exp_nframes ∧ s.exp_groupgap = d.exp_groupgap
    · cases o <;> simp [do_correction_data, hskip, hmatch]
    · simp [do_correction_data, hskip, hmatch]

/-- C10 counterexample: a spatially inconsistent dark (1 row versus 2 science
rows) does not fail loudly: the checked pipeline completes with `ok` and
numpy broadcasting silently subtracts dark row 0 from every science row —
output pixel `(1, 0)` received `0 - 7`. -/
theorem C10_counterexample :
    darkTiny3.shapeRows ≠ sciRows2.rows ∧
    isOkE (run_correction_chk sciRows2 darkTiny3 none) = true ∧
    (run_correction_chk sciRows2 darkTiny3 none).toOption.map
      (fun p => p.1.data 0 0 1 0) = some (Val.num (-7)) := by
  refine ⟨by norm_num [darkTiny3, sciRows2, DarkData.shapeRows], ?_, ?_⟩
  · norm_num [run_correction_chk, sciRows2, darkTiny3, total_frames,
      DarkData.shapeNgroups, DarkData.shapeNints, subtract_dark_chk, isOkE, nanReplace]
  · norm_num [run_correction_chk, sciRows2, darkTiny3, total_frames,
      DarkData.shapeNgroups, DarkData.shapeNints, subtract_dark_chk, nanReplace,
      broadcastDark, subtract_dark, bIdx, Val.sub, Val.isNan, Except.toOption]

/-- C10 (amended): a dark with fewer than 2 groups (and a nonempty
integration axis) at a point where extrapolation is required does fail
loudly — the correction stops with an index error before any numeric result
is produced; spatial inconsistencies, by contrast, may be silently broadcast
(see the counterexample), and no distinct ShapeError/PreconditionError kind
exists. -/
theorem C10_amended_short_dark_errors (s : ScienceData) (d : DarkData)
    (o : Option String)
    (hshort : total_frames s.ngroups s.exp_nframes s.exp_groupgap >
              total_frames d.shapeNgroups d.exp_nframes d.exp_groupgap)
    (hg : d.shapeNgroups < 2) (hni : 1 ≤ d.shapeNints) :
    run_correction_chk s d o = .error "IndexError" := by
  simp [run_correction_chk, hshort, extrapolate_dark_chk, hg, hni]

/-- Witness for the amended C10: a 1-group dark that must be extrapolated to
cover `sciA` makes the checked correction fail with an index error. -/
theorem C10_amended_short_dark_errors_witness :
    (total_frames sciA.ngroups sciA.exp_nframes sciA.exp_groupgap >
       total_frames darkOneGroup3.shapeNgroups darkOneGroup3.exp_nframes
         darkOneGroup3.exp_groupgap ∧
     darkOneGroup3.shapeNgroups < 2 ∧ 1 ≤ darkOneGroup3.shapeNints) ∧
    run_correction_chk sciA darkOneGroup3 none = .error "IndexError" :=
  ⟨⟨by norm_num [sciA, darkOneGroup3, total_frames, DarkData.shapeNgroups],
    by norm_num [darkOneGroup3, DarkData.shapeNgroups],
    by norm_num [darkOneGroup3, DarkData.shapeNints]⟩,
   C10_amended_short_dark_errors sciA darkOneGroup3 none
     (by norm_num [sciA, darkOneGroup3, total_frames, DarkData.shapeNgroups])
     (by norm_num [darkOneGroup3, DarkData.shapeNgroups])
     (by norm_num [darkOneGroup3, DarkData.shapeNints])⟩

end DarkSub
